import Mathlib

/-!
Shallow embedding of `src/libcheese/cheese-camera-device.c` (the cheese
camera-device handle and its capability prober).

Machine integers: GLib's `gint` is modelled as `Int` (no claim here exercises
32-bit overflow) and `guint` as `Nat`.  C's `/` on `gint` truncates toward
zero, which is `Int.tdiv`.  GStreamer collaborator objects (`GstCaps`,
`GValue`, the probing pipeline, the bus) are external to the repository; they
are modelled at the granularity this file's theorems need: a caps is a list of
structures, each carrying a media-type name, a framerate range (fractions,
modelled as `Rat`) and width/height `GValue`s that hold either an int or an
int range.  The outcome of the live pipeline probe (parse success, state
change result, popped bus error message, caps offered by the source pad) is
an explicit `ProbeEnv` input.
-/

/-- CheeseVideoFormat: a value type of width and height in pixels
(`gint` fields in the C struct). -/
structure CheeseVideoFormat where
  width : Int
  height : Int
deriving DecidableEq, Repr

/-- The error codes of `enum CheeseCameraDeviceError`. -/
inductive CheeseCameraDeviceError where
  | UNKNOWN
  | NOT_SUPPORTED
  | UNSUPPORTED_CAPS
  | FAILED_INITIALIZATION
deriving DecidableEq, Repr

/-- A `GError` in the cheese-camera-device error domain: the code and the
human-readable message set by `g_set_error` / `g_set_error_literal`. -/
structure CheeseGError where
  code : CheeseCameraDeviceError
  message : String
deriving DecidableEq, Repr

/-- A `GValue` as it appears in the width/height fields of a caps structure:
either a plain int (`G_VALUE_HOLDS_INT`), an int range
(`GST_VALUE_HOLDS_INT_RANGE`), or anything else. -/
inductive GVal where
  | vint (i : Int)
  | vrange (lo hi : Int)
  | vother
deriving DecidableEq, Repr

/-- One `GstStructure` of a caps: its media-type name, its framerate
constraint as an inclusive range of fractions (a fixed rate is the range
`[r, r]`), and its width and height values. -/
structure CapsStructure where
  media : String
  rate_lo : Rat
  rate_hi : Rat
  width : GVal
  height : GVal
deriving DecidableEq, Repr

/-- The static allow-list `supported_formats` of pixel-encoding families. -/
def supported_formats : List String :=
  ["video/x-raw-rgb", "video/x-raw-yuv"]

/-- The policy constant `CHEESE_MAXIMUM_RATE` (frames per second). -/
def CHEESE_MAXIMUM_RATE : Rat := 30

/-- Intersection of two inclusive fraction ranges, as GStreamer computes it
when intersecting framerate fields: the overlap, or `none` when empty. -/
def gst_fraction_range_intersect (lo hi lo2 hi2 : Rat) : Option (Rat × Rat) :=
  if max lo lo2 ≤ min hi hi2 then some (max lo lo2, min hi hi2) else none

/-- `cheese_camera_device_filter_caps`: intersect the device's caps with the
filter built from `supported_formats` at framerate range
`[0, CHEESE_MAXIMUM_RATE]`.  A structure survives iff its media type is in the
allow-list and its framerate range overlaps the policy range; its width and
height pass through unchanged and its framerate range is clipped. -/
def cheese_camera_device_filter_caps (caps : List CapsStructure) : List CapsStructure :=
  caps.filterMap fun s =>
    if supported_formats.contains s.media then
      match gst_fraction_range_intersect s.rate_lo s.rate_hi 0 CHEESE_MAXIMUM_RATE with
      | some (lo, hi) => some { s with rate_lo := lo, rate_hi := hi }
      | none => none
    else none

/-- `gst_caps_is_empty`: a caps with no structures. -/
def gst_caps_is_empty (caps : List CapsStructure) : Bool :=
  caps.isEmpty

/-- `compare_formats`: descending sort for rectangle area
(`d->width * d->height - c->width * c->height`). -/
def compare_formats (c d : CheeseVideoFormat) : Int :=
  d.width * d.height - c.width * c.height

/-- `cheese_camera_device_add_format`: append `format` to the list unless an
entry with the same width and height is already present. -/
def cheese_camera_device_add_format (formats : List CheeseVideoFormat)
    (format : CheeseVideoFormat) : List CheeseVideoFormat :=
  if formats.any fun item => item.width == format.width && item.height == format.height then
    formats
  else
    formats ++ [format]

/-- `gst_structure_get_int` as used on the height field: yields the int, or
leaves the `g_new0`-zeroed field untouched (0) when the value is not an int. -/
def gst_structure_get_int (v : GVal) : Int :=
  match v with
  | .vint i => i
  | _ => 0

/-- `gst_value_get_int_range_min` (0 outside its domain; the C call requires
a range value). -/
def gst_value_get_int_range_min (v : GVal) : Int :=
  match v with
  | .vrange lo _ => lo
  | _ => 0

/-- `gst_value_get_int_range_max` (0 outside its domain). -/
def gst_value_get_int_range_max (v : GVal) : Int :=
  match v with
  | .vrange _ hi => hi
  | _ => 0

/-- Fuel bounding the two sweep loops of
`cheese_camera_device_update_format_table`.  The C loops have no explicit
bound; for the range values that actually occur (positive minima) the
doubling/halving terminates well within this fuel. -/
def sweep_fuel (a b : Int) : Nat :=
  a.toNat + b.toNat + 1

/-- The doubling sweep of `cheese_camera_device_update_format_table`: while
`cur_width <= max_width && cur_height <= max_height`, emit the pair and
double both dimensions. -/
def sweep_up_go : Nat → Int → Int → Int → Int → List CheeseVideoFormat
  | 0, _, _, _, _ => []
  | fuel + 1, curW, curH, maxW, maxH =>
    if curW ≤ maxW ∧ curH ≤ maxH then
      ⟨curW, curH⟩ :: sweep_up_go fuel (curW * 2) (curH * 2) maxW maxH
    else []

/-- The halving sweep of `cheese_camera_device_update_format_table`: while
`cur_width > min_width && cur_height > min_height`, emit the pair and halve
both dimensions with C's truncating integer division. -/
def sweep_down_go : Nat → Int → Int → Int → Int → List CheeseVideoFormat
  | 0, _, _, _, _ => []
  | fuel + 1, curW, curH, minW, minH =>
    if minW < curW ∧ minH < curH then
      ⟨curW, curH⟩ :: sweep_down_go fuel (Int.tdiv curW 2) (Int.tdiv curH 2) minW minH
    else []

/-- The doubling sweep started at `(min_width, min_height)`. -/
def range_sweep_up (minW minH maxW maxH : Int) : List CheeseVideoFormat :=
  sweep_up_go (sweep_fuel maxW maxH) minW minH maxW maxH

/-- The halving sweep started at `(max_width, max_height)`. -/
def range_sweep_down (minW minH maxW maxH : Int) : List CheeseVideoFormat :=
  sweep_down_go (sweep_fuel maxW maxH) maxW maxH minW minH

/-- The candidate formats one caps structure contributes in
`cheese_camera_device_update_format_table`, in emission order: a fixed width
yields that exact pair; an int-range width yields the doubling sweep followed
by the halving sweep; any other width value is logged with `g_critical` and
skipped. -/
def structure_candidates (s : CapsStructure) : List CheeseVideoFormat :=
  match s.width with
  | .vint w => [{ width := w, height := gst_structure_get_int s.height }]
  | .vrange lw hw =>
    range_sweep_up lw (gst_value_get_int_range_min s.height)
        hw (gst_value_get_int_range_max s.height) ++
      range_sweep_down lw (gst_value_get_int_range_min s.height)
        hw (gst_value_get_int_range_max s.height)
  | .vother => []

/-- `cheese_camera_device_update_format_table`: free the old list, then for
each structure of the caps add its candidates through
`cheese_camera_device_add_format` (which de-duplicates). -/
def cheese_camera_device_update_format_table (caps : List CapsStructure) :
    List CheeseVideoFormat :=
  ((caps.map structure_candidates).flatten).foldl cheese_camera_device_add_format []

/-- The observable outcome of the throwaway probing pipeline around one
device: whether `gst_parse_launch` produced a pipeline with no error, whether
`gst_element_get_state` returned `GST_STATE_CHANGE_SUCCESS` within the
10-second wait, the error message popped from the bus (if any), and the caps
offered by the source pad. -/
structure ProbeEnv where
  parse_ok : Bool
  state_change_success : Bool
  bus_error : Option String
  device_caps : List CapsStructure
deriving Repr

/-- The fields of `CheeseCameraDevicePrivate`. -/
structure CheeseCameraDevicePrivate where
  device_node : String
  uuid : String
  src : String
  name : String
  v4lapi_version : Nat
  caps : List CapsStructure
  formats : List CheeseVideoFormat
  construct_error : Option CheeseGError
deriving DecidableEq, Repr

/-- The error stored by `g_set_error_literal` when the filtered caps are
empty. -/
def unsupported_caps_error : CheeseGError :=
  { code := .UNSUPPORTED_CAPS, message := "Device capabilities not supported" }

/-- The error stored by `g_set_error` when the probing pipeline posted an
error message on its bus; it names the device node. -/
def failed_init_error (device_node : String) : CheeseGError :=
  { code := .FAILED_INITIALIZATION
    message := "Failed to initialize device " ++ device_node ++ " for capability probing" }

/-- The error returned by `cheese_camera_device_initable_init` when
cancellation is requested. -/
def not_supported_error : CheeseGError :=
  { code := .NOT_SUPPORTED, message := "Cancellable initialization not supported" }

/-- `cheese_camera_device_get_caps`: run the probe.  On a parsed pipeline that
reached ready (`GST_STATE_CHANGE_SUCCESS`) with no bus error message, store
the filtered caps; derive the format table when they are non-empty, otherwise
store the unsupported-capabilities error.  Otherwise, store the
failed-initialization error naming the device node — but only when an error
message was actually popped from the bus (`if (msg)` in the C source). -/
def cheese_camera_device_get_caps (priv : CheeseCameraDevicePrivate) (env : ProbeEnv) :
    CheeseCameraDevicePrivate :=
  if env.parse_ok then
    if env.bus_error = none ∧ env.state_change_success then
      let allowed := cheese_camera_device_filter_caps env.device_caps
      if ¬ gst_caps_is_empty allowed then
        { priv with
            caps := allowed
            formats := cheese_camera_device_update_format_table allowed }
      else
        { priv with
            caps := allowed
            construct_error := some unsupported_caps_error }
    else
      match env.bus_error with
      | some _ =>
        { priv with construct_error := some (failed_init_error priv.device_node) }
      | none => priv
  else priv

/-- `cheese_camera_device_init`: the freshly allocated private state (string
properties unset, empty caps, empty format list, no construction error). -/
def cheese_camera_device_init_state : CheeseCameraDevicePrivate :=
  { device_node := ""
    uuid := ""
    src := ""
    name := "Unknown device"
    v4lapi_version := 0
    caps := []
    formats := []
    construct_error := none }

/-- `cheese_camera_device_constructed`: select the source element from the
V4L API version (2 selects `v4l2src`, otherwise `v4lsrc`) and probe. -/
def cheese_camera_device_constructed (priv : CheeseCameraDevicePrivate) (env : ProbeEnv) :
    CheeseCameraDevicePrivate :=
  cheese_camera_device_get_caps
    { priv with src := if priv.v4lapi_version = 2 then "v4l2src" else "v4lsrc" } env

/-- The private state of a device built by `cheese_camera_device_new`:
`cheese_camera_device_init`, the construct-only properties, then
`cheese_camera_device_constructed` (which probes). -/
def cheese_camera_device_new_state (uuid device_node nm : String)
    (v4l_api_version : Nat) (env : ProbeEnv) : CheeseCameraDevicePrivate :=
  cheese_camera_device_constructed
    { cheese_camera_device_init_state with
        uuid := uuid
        device_node := device_node
        name := nm
        v4lapi_version := v4l_api_version } env

/-- `cheese_camera_device_initable_init`: a cancellation request fails with
the not-supported error before the stored state is inspected; otherwise a
stored construction error is returned (as a copy, the handle keeps the
original) and the call fails; otherwise it succeeds. -/
def cheese_camera_device_initable_init (priv : CheeseCameraDevicePrivate)
    (cancellable : Option Unit) : Bool × Option CheeseGError :=
  if cancellable ≠ none then
    (false, some not_supported_error)
  else
    match priv.construct_error with
    | some e => (false, some e)
    | none => (true, none)

/-- `cheese_camera_device_get_format_list`: sort a copy of the internal list
with `compare_formats` (GLib's `g_list_sort` is a stable merge sort). -/
def cheese_camera_device_get_format_list (priv : CheeseCameraDevicePrivate) :
    List CheeseVideoFormat :=
  priv.formats.mergeSort fun a b => decide (compare_formats a b ≤ 0)

/-- No two entries of the list agree on both width and height. -/
def format_list_nodup (l : List CheeseVideoFormat) : Prop :=
  l.Pairwise fun a b => ¬ (a.width = b.width ∧ a.height = b.height)

/-- A well-formed caps structure, the shape GStreamer actually reports for
video caps: width and height both fixed positive ints, or both positive int
ranges with min ≤ max. -/
def caps_structure_wf (s : CapsStructure) : Prop :=
  match s.width, s.height with
  | .vint w, .vint h => 0 < w ∧ 0 < h
  | .vrange lw hw, .vrange lh hh => 0 < lw ∧ 0 < lh ∧ lw ≤ hw ∧ lh ≤ hh
  | _, _ => False

/-! ### Sorting (C1, C10) -/

/-- The boolean ordering used through `compare_formats` is transitive. -/
lemma compare_formats_le_trans (a b c : CheeseVideoFormat)
    (h1 : compare_formats a b ≤ 0) (h2 : compare_formats b c ≤ 0) :
    compare_formats a c ≤ 0 := by
  unfold compare_formats at *
  omega

/-- The boolean ordering used through `compare_formats` is total. -/
lemma compare_formats_le_total (a b : CheeseVideoFormat) :
    compare_formats a b ≤ 0 ∨ compare_formats b a ≤ 0 := by
  unfold compare_formats
  omega

/-- C1: for every handle, `cheese_camera_device_get_format_list` is a
permutation of the internal format list ordered by descending pixel area:
whenever `f1` appears before `f2`, `f1.width * f1.height ≥
f2.width * f2.height`. -/
theorem get_format_list_sorted_by_descending_area (priv : CheeseCameraDevicePrivate) :
    List.Pairwise
      (fun f1 f2 : CheeseVideoFormat => f1.width * f1.height ≥ f2.width * f2.height)
      (cheese_camera_device_get_format_list priv) ∧
    List.Perm (cheese_camera_device_get_format_list priv) priv.formats := by
  constructor
  · have h := @List.sorted_mergeSort CheeseVideoFormat
      (fun a b : CheeseVideoFormat => decide (compare_formats a b ≤ 0))
      (fun a b c h1 h2 => by
        simp only [decide_eq_true_eq] at *
        exact compare_formats_le_trans a b c h1 h2)
      (fun a b => by
        simpa only [Bool.or_eq_true, decide_eq_true_eq] using compare_formats_le_total a b)
      priv.formats
    refine h.imp ?_
    intro a b hab
    simp only [decide_eq_true_eq] at hab
    unfold compare_formats at hab
    omega
  · exact List.mergeSort_perm priv.formats _

/-- C10: the format list starts empty at initialization, and on any handle
whose probe produced no formats `cheese_camera_device_get_format_list`
returns the empty sequence (it just sorts a copy of the internal list). -/
theorem get_format_list_of_empty_is_empty :
    cheese_camera_device_init_state.formats = [] ∧
    ∀ priv : CheeseCameraDevicePrivate, priv.formats = [] →
      cheese_camera_device_get_format_list priv = [] := by
  refine ⟨rfl, fun priv h => ?_⟩
  simp [cheese_camera_device_get_format_list, h]

/-- Witness for C10 at the freshly initialized handle. -/
theorem get_format_list_of_empty_is_empty_witness :
    cheese_camera_device_get_format_list cheese_camera_device_init_state = [] :=
  get_format_list_of_empty_is_empty.2 cheese_camera_device_init_state rfl

/-! ### Initialization finalization (C8, C9) -/

/-- C8: a cancellation request makes `cheese_camera_device_initable_init`
fail immediately with the not-supported error, whatever the stored state
(in particular even when no construction error was stored), and that error
kind is distinct from both probing error kinds. -/
theorem initable_init_cancellation_not_supported (priv : CheeseCameraDevicePrivate)
    (c : Unit) :
    cheese_camera_device_initable_init priv (some c) = (false, some not_supported_error) ∧
    not_supported_error.code = CheeseCameraDeviceError.NOT_SUPPORTED ∧
    not_supported_error.code ≠ unsupported_caps_error.code ∧
    ∀ node : String, not_supported_error.code ≠ (failed_init_error node).code := by
  refine ⟨rfl, rfl, by decide, fun node => ?_⟩
  simp [not_supported_error, failed_init_error]

/-- C9: without a cancellation request, `cheese_camera_device_initable_init`
fails returning the stored construction error when there is one (the handle
retains the original: the state is not modified), and succeeds when none was
stored. -/
theorem initable_init_replays_construct_error (priv : CheeseCameraDevicePrivate) :
    (∀ e, priv.construct_error = some e →
      cheese_camera_device_initable_init priv none = (false, some e)) ∧
    (priv.construct_error = none →
      cheese_camera_device_initable_init priv none = (true, none)) := by
  constructor
  · intro e he
    simp [cheese_camera_device_initable_init, he]
  · intro he
    simp [cheese_camera_device_initable_init, he]

/-- Witness for C9: a handle with a stored error replays it; a handle with
none succeeds. -/
theorem initable_init_replays_construct_error_witness :
    cheese_camera_device_initable_init
        { cheese_camera_device_init_state with construct_error := some unsupported_caps_error }
        none
      = (false, some unsupported_caps_error) ∧
    cheese_camera_device_initable_init cheese_camera_device_init_state none = (true, none) :=
  ⟨(initable_init_replays_construct_error _).1 unsupported_caps_error rfl,
   (initable_init_replays_construct_error _).2 rfl⟩

/-! ### De-duplication (C7) -/

/-- Adding a format whose width and height already occur leaves the list
unchanged. -/
lemma add_format_of_mem (fs : List CheeseVideoFormat) (f : CheeseVideoFormat)
    (h : ∃ g ∈ fs, g.width = f.width ∧ g.height = f.height) :
    cheese_camera_device_add_format fs f = fs := by
  unfold cheese_camera_device_add_format
  rw [if_pos]
  simp only [List.any_eq_true, Bool.and_eq_true, beq_iff_eq]
  obtain ⟨g, hg, h1, h2⟩ := h
  exact ⟨g, hg, h1, h2⟩

/-- `cheese_camera_device_add_format` preserves the no-duplicate invariant. -/
lemma add_format_nodup (fs : List CheeseVideoFormat) (f : CheeseVideoFormat)
    (h : format_list_nodup fs) :
    format_list_nodup (cheese_camera_device_add_format fs f) := by
  unfold cheese_camera_device_add_format
  split
  · exact h
  · next hany =>
    rw [format_list_nodup, List.pairwise_append]
    refine ⟨h, List.pairwise_singleton _ _, ?_⟩
    intro a ha b hb
    simp only [List.mem_singleton] at hb
    subst hb
    simp only [List.any_eq_true, Bool.and_eq_true, beq_iff_eq, not_exists, not_and] at hany
    intro hcontra
    exact hany a ha hcontra.1 hcontra.2

/-- Folding `cheese_camera_device_add_format` over any candidate list
preserves the no-duplicate invariant. -/
lemma foldl_add_format_nodup (l : List CheeseVideoFormat) :
    ∀ acc, format_list_nodup acc →
      format_list_nodup (l.foldl cheese_camera_device_add_format acc) := by
  induction l with
  | nil => intro acc h; exact h
  | cons c cs ih =>
    intro acc h
    exact ih _ (add_format_nodup acc c h)

/-- C7: the format list never holds two entries with equal width and height.
Adding an already-present (width, height) pair is a no-op,
`cheese_camera_device_add_format` preserves the invariant, the whole derived
format table satisfies it (across fixed and ranged expansion alike), and so
does the sorted list `cheese_camera_device_get_format_list` returns. -/
theorem format_table_never_contains_duplicates :
    (∀ fs f, (∃ g ∈ fs, g.width = f.width ∧ g.height = f.height) →
      cheese_camera_device_add_format fs f = fs) ∧
    (∀ fs f, format_list_nodup fs →
      format_list_nodup (cheese_camera_device_add_format fs f)) ∧
    (∀ caps, format_list_nodup (cheese_camera_device_update_format_table caps)) ∧
    (∀ priv : CheeseCameraDevicePrivate, format_list_nodup priv.formats →
      format_list_nodup (cheese_camera_device_get_format_list priv)) := by
  refine ⟨add_format_of_mem, add_format_nodup, ?_, ?_⟩
  · intro caps
    exact foldl_add_format_nodup _ [] List.Pairwise.nil
  · intro priv h
    have hperm : List.Perm (cheese_camera_device_get_format_list priv) priv.formats :=
      List.mergeSort_perm priv.formats _
    have hsym : ∀ {x y : CheeseVideoFormat},
        ¬(x.width = y.width ∧ x.height = y.height) →
        ¬(y.width = x.width ∧ y.height = x.height) := by
      intro x y hxy hc
      exact hxy ⟨hc.1.symm, hc.2.symm⟩
    exact (List.Perm.pairwise_iff hsym hperm).mpr h

/-- Witness for C7: a duplicate add is a no-op, on a concrete list. -/
theorem format_table_never_contains_duplicates_witness :
    cheese_camera_device_add_format [⟨640, 480⟩] ⟨640, 480⟩ = [⟨640, 480⟩] :=
  format_table_never_contains_duplicates.1 [⟨640, 480⟩] ⟨640, 480⟩ (by decide)

/-! ### The doubling sweep (C5) -/

/-- A doubling sweep whose guard already fails emits nothing. -/
lemma sweep_up_go_stop (fuel : Nat) (curW curH maxW maxH : Int)
    (h : ¬(curW ≤ maxW ∧ curH ≤ maxH)) :
    sweep_up_go fuel curW curH maxW maxH = [] := by
  cases fuel with
  | zero => rfl
  | succ n => rw [sweep_up_go, if_neg h]

/-- Every element of the doubling sweep is the start pair doubled `k` times
and satisfies the guard that admitted it. -/
lemma sweep_up_go_mem_elim : ∀ (fuel : Nat) (curW curH maxW maxH : Int)
    (f : CheeseVideoFormat), f ∈ sweep_up_go fuel curW curH maxW maxH →
    ∃ k : Nat, f.width = curW * 2 ^ k ∧ f.height = curH * 2 ^ k ∧
      f.width ≤ maxW ∧ f.height ≤ maxH := by
  intro fuel
  induction fuel with
  | zero =>
    intro curW curH maxW maxH f hf
    simp [sweep_up_go] at hf
  | succ n ih =>
    intro curW curH maxW maxH f hf
    rw [sweep_up_go] at hf
    split at hf
    · next hguard =>
      rcases List.mem_cons.mp hf with hf | hf
      · subst hf
        exact ⟨0, by simp, by simp, hguard.1, hguard.2⟩
      · obtain ⟨k, h1, h2, h3, h4⟩ := ih _ _ _ _ f hf
        refine ⟨k + 1, ?_, ?_, h3, h4⟩
        · rw [h1]; ring
        · rw [h2]; ring
    · simp at hf

/-- Conversely, with positive start dimensions and enough fuel, every doubled
pair within the bounds is emitted by the doubling sweep. -/
lemma sweep_up_go_mem_intro : ∀ (k fuel : Nat) (curW curH maxW maxH : Int),
    0 < curW → 0 < curH → k < fuel →
    curW * 2 ^ k ≤ maxW → curH * 2 ^ k ≤ maxH →
    (⟨curW * 2 ^ k, curH * 2 ^ k⟩ : CheeseVideoFormat) ∈
      sweep_up_go fuel curW curH maxW maxH := by
  intro k
  induction k with
  | zero =>
    intro fuel curW curH maxW maxH hw hh hk h1 h2
    obtain ⟨n, rfl⟩ : ∃ n, fuel = n + 1 := ⟨fuel - 1, by omega⟩
    rw [sweep_up_go, if_pos ⟨by simpa using h1, by simpa using h2⟩]
    simp
  | succ k ih =>
    intro fuel curW curH maxW maxH hw hh hk h1 h2
    obtain ⟨n, rfl⟩ : ∃ n, fuel = n + 1 := ⟨fuel - 1, by omega⟩
    have hone : (1 : Int) ≤ 2 ^ (k + 1) := by
      have := pow_pos (by norm_num : (0:Int) < 2) (k + 1)
      linarith
    have hWg : curW ≤ maxW :=
      le_trans (le_mul_of_one_le_right hw.le hone) h1
    have hHg : curH ≤ maxH :=
      le_trans (le_mul_of_one_le_right hh.le hone) h2
    rw [sweep_up_go, if_pos ⟨hWg, hHg⟩]
    apply List.mem_cons_of_mem
    have ew : curW * 2 ^ (k + 1) = curW * 2 * 2 ^ k := by ring
    have eh : curH * 2 ^ (k + 1) = curH * 2 * 2 ^ k := by ring
    rw [ew, eh]
    exact ih n (curW * 2) (curH * 2) maxW maxH (by linarith) (by linarith)
      (by omega) (by rw [← ew]; exact h1) (by rw [← eh]; exact h2)

/-- C5: the doubling sweep starts at `(min width, min height)` and adds each
pair, doubling both dimensions, while the current width is `≤ max width` and
the current height is `≤ max height`: its members are exactly the doubled
pairs within both bounds; a range with `min = max` (positive) yields exactly
its single resolution; and for min `(160,120)`, max `(640,480)` it yields
exactly `(160,120), (320,240), (640,480)`. -/
theorem doubling_sweep_yields_geometric_candidates :
    (∀ minW minH maxW maxH : Int, 0 < minW → 0 < minH →
      ∀ f : CheeseVideoFormat,
        f ∈ range_sweep_up minW minH maxW maxH ↔
          ∃ k : Nat, f.width = minW * 2 ^ k ∧ f.height = minH * 2 ^ k ∧
            f.width ≤ maxW ∧ f.height ≤ maxH) ∧
    (∀ w h : Int, 0 < w → 0 < h → range_sweep_up w h w h = [⟨w, h⟩]) ∧
    range_sweep_up 160 120 640 480 = [⟨160, 120⟩, ⟨320, 240⟩, ⟨640, 480⟩] := by
  refine ⟨?_, ?_, by decide⟩
  · intro minW minH maxW maxH hw hh f
    constructor
    · exact sweep_up_go_mem_elim _ _ _ _ _ f
    · rintro ⟨k, h1, h2, h3, h4⟩
      have hf : f = ⟨minW * 2 ^ k, minH * 2 ^ k⟩ := by
        cases f
        simp_all
      rw [hf]
      have hpk : (2 : Int) ^ k ≤ maxW := by
        have hle : (2 : Int) ^ k ≤ minW * 2 ^ k :=
          le_mul_of_one_le_left (pow_nonneg (by norm_num) k) (by linarith)
        rw [h1] at h3
        linarith
      have hkn : k < sweep_fuel maxW maxH := by
        have hmw : (0 : Int) ≤ maxW :=
          le_trans (pow_nonneg (by norm_num) k) hpk
        have h2k : 2 ^ k ≤ maxW.toNat := (Int.le_toNat hmw).mpr (by push_cast; exact hpk)
        have hlt : k < maxW.toNat := Nat.lt_of_lt_of_le (Nat.lt_two_pow k) h2k
        rw [sweep_fuel]
        omega
      exact sweep_up_go_mem_intro k _ _ _ _ _ hw hh hkn (h1 ▸ h3) (h2 ▸ h4)
  · intro w h hw hh
    rw [range_sweep_up, sweep_fuel, sweep_up_go, if_pos ⟨le_refl w, le_refl h⟩,
      sweep_up_go_stop]
    intro hcontra
    linarith [hcontra.1]

/-- Witness for C5 at the spec's boundary example `min = max = (320,240)`. -/
theorem doubling_sweep_yields_geometric_candidates_witness :
    range_sweep_up 320 240 320 240 = [⟨320, 240⟩] :=
  doubling_sweep_yields_geometric_candidates.2.1 320 240 (by decide) (by decide)

/-! ### The halving sweep (C6) -/

/-- A halving sweep whose guard already fails emits nothing. -/
lemma sweep_down_go_stop (fuel : Nat) (curW curH minW minH : Int)
    (h : ¬(minW < curW ∧ minH < curH)) :
    sweep_down_go fuel curW curH minW minH = [] := by
  cases fuel with
  | zero => rfl
  | succ n => rw [sweep_down_go, if_neg h]

/-- Every pair the halving sweep emits is strictly above the minimum in both
dimensions (the guard admitted it). -/
lemma sweep_down_go_mem_bounds : ∀ (fuel : Nat) (curW curH minW minH : Int)
    (f : CheeseVideoFormat), f ∈ sweep_down_go fuel curW curH minW minH →
    minW < f.width ∧ minH < f.height := by
  intro fuel
  induction fuel with
  | zero =>
    intro curW curH minW minH f hf
    simp [sweep_down_go] at hf
  | succ n ih =>
    intro curW curH minW minH f hf
    rw [sweep_down_go] at hf
    split at hf
    · next hguard =>
      rcases List.mem_cons.mp hf with hf | hf
      · subst hf
        exact hguard
      · exact ih _ _ _ _ f hf
    · simp at hf

/-- The halving sweep is exactly the `takeWhile` of the halving iterates of
the start pair under the strict guard, up to the fuel bound. -/
lemma sweep_down_go_eq_takeWhile : ∀ (fuel : Nat) (curW curH minW minH : Int),
    sweep_down_go fuel curW curH minW minH =
      (((List.range fuel).map fun k =>
          (((fun x : Int => Int.tdiv x 2)^[k] curW,
            (fun x : Int => Int.tdiv x 2)^[k] curH) : Int × Int)).takeWhile
        fun p => decide (minW < p.1) && decide (minH < p.2)).map
        fun p => (⟨p.1, p.2⟩ : CheeseVideoFormat) := by
  intro fuel
  induction fuel with
  | zero => intro curW curH minW minH; rfl
  | succ n ih =>
    intro curW curH minW minH
    have hfun : ((fun k : Nat =>
        (((fun x : Int => Int.tdiv x 2)^[k] curW,
          (fun x : Int => Int.tdiv x 2)^[k] curH) : Int × Int)) ∘ Nat.succ) =
        fun k : Nat =>
          (((fun x : Int => Int.tdiv x 2)^[k] (Int.tdiv curW 2),
            (fun x : Int => Int.tdiv x 2)^[k] (Int.tdiv curH 2)) : Int × Int) := by
      funext k
      simp [Function.comp_def, Function.iterate_succ_apply]
    by_cases hg : minW < curW ∧ minH < curH
    · rw [sweep_down_go, if_pos hg, List.range_succ_eq_map]
      simp only [List.map_cons, List.map_map, Function.iterate_zero_apply, hfun,
        List.takeWhile_cons, hg.1, hg.2, decide_True, Bool.and_self, if_true]
      rw [ih]
    · rw [sweep_down_go_stop _ _ _ _ _ hg, List.range_succ_eq_map]
      simp only [List.map_cons, List.map_map, Function.iterate_zero_apply,
        List.takeWhile_cons]
      rw [if_neg, List.map_nil]
      simp only [Bool.and_eq_true, decide_eq_true_eq]
      exact hg

/-- The doubling sweep on a `min = max` range yields exactly the single
resolution (used for the asymmetry between C5 and C6). -/
lemma range_sweep_up_self_eq (w h : Int) (hw : 0 < w) (hh : 0 < h) :
    range_sweep_up w h w h = [⟨w, h⟩] := by
  rw [range_sweep_up, sweep_fuel, sweep_up_go, if_pos ⟨le_refl w, le_refl h⟩,
    sweep_up_go_stop]
  intro hcontra
  linarith [hcontra.1]

/-- C6: the halving sweep starts at `(max width, max height)` and adds each
pair, halving both dimensions by truncating integer division, while the
current width is strictly greater than `min width` and the current height is
strictly greater than `min height`; as a consequence it never contributes the
pair `(min width, min height)` itself, and on a `min = max` range it yields
nothing while the doubling sweep still yields the single resolution — the
designed asymmetry between the two stop conditions. -/
theorem halving_sweep_strict_stop_condition :
    (∀ minW minH maxW maxH : Int,
      range_sweep_down minW minH maxW maxH =
        (((List.range (sweep_fuel maxW maxH)).map fun k =>
            (((fun x : Int => Int.tdiv x 2)^[k] maxW,
              (fun x : Int => Int.tdiv x 2)^[k] maxH) : Int × Int)).takeWhile
          fun p => decide (minW < p.1) && decide (minH < p.2)).map
          fun p => (⟨p.1, p.2⟩ : CheeseVideoFormat)) ∧
    (∀ minW minH maxW maxH : Int, ∀ f ∈ range_sweep_down minW minH maxW maxH,
      minW < f.width ∧ minH < f.height) ∧
    (∀ minW minH maxW maxH : Int,
      (⟨minW, minH⟩ : CheeseVideoFormat) ∉ range_sweep_down minW minH maxW maxH) ∧
    (∀ w h : Int, range_sweep_down w h w h = [] ∧
      (0 < w → 0 < h → range_sweep_up w h w h = [⟨w, h⟩])) := by
  refine ⟨?_, ?_, ?_, ?_⟩
  · intro minW minH maxW maxH
    exact sweep_down_go_eq_takeWhile _ _ _ _ _
  · intro minW minH maxW maxH f hf
    exact sweep_down_go_mem_bounds _ _ _ _ _ f hf
  · intro minW minH maxW maxH hmem
    have := sweep_down_go_mem_bounds _ _ _ _ _ _ hmem
    exact lt_irrefl minW this.1
  · intro w h
    refine ⟨?_, fun hw hh => range_sweep_up_self_eq w h hw hh⟩
    apply sweep_down_go_stop
    intro hcontra
    exact lt_irrefl w hcontra.1

/-- Witness for C6: on the equal range `(320,240)`–`(320,240)` the halving
sweep contributes nothing while the doubling sweep yields the single
candidate (here at `(200,150)` for the doubling side). -/
theorem halving_sweep_strict_stop_condition_witness :
    range_sweep_down 320 240 320 240 = [] ∧
    range_sweep_up 200 150 200 150 = [⟨200, 150⟩] :=
  ⟨(halving_sweep_strict_stop_condition.2.2.2 320 240).1,
   (halving_sweep_strict_stop_condition.2.2.2 200 150).2 (by decide) (by decide)⟩

/-! ### Empty filtered caps (C4) -/

/-- On a successful probe, `cheese_camera_device_get_caps` with empty
filtered caps stores the unsupported-capabilities error and leaves the
format list untouched. -/
lemma get_caps_empty_filtered (priv : CheeseCameraDevicePrivate) (env : ProbeEnv)
    (hp : env.parse_ok = true) (hs : env.state_change_success = true)
    (hb : env.bus_error = none)
    (hfilter : cheese_camera_device_filter_caps env.device_caps = []) :
    cheese_camera_device_get_caps priv env =
      { priv with caps := [], construct_error := some unsupported_caps_error } := by
  obtain ⟨po, scs, be, dc⟩ := env
  simp only at hp hs hb hfilter
  subst hp hs hb
  simp [cheese_camera_device_get_caps, hfilter, gst_caps_is_empty]

/-- C4: a probe whose filtered capability set (the device caps intersected
with the allow-listed encoding families at frame rates in `[0, 30]`) is
empty stores the unsupported-capabilities construction error and produces no
format list; every filtered structure indeed lies in the policy set. -/
theorem empty_filtered_caps_stores_unsupported_error :
    (∀ (uuid node nm : String) (v4l : Nat) (env : ProbeEnv),
      env.parse_ok = true → env.state_change_success = true → env.bus_error = none →
      cheese_camera_device_filter_caps env.device_caps = [] →
      (cheese_camera_device_new_state uuid node nm v4l env).construct_error
          = some unsupported_caps_error ∧
      (cheese_camera_device_new_state uuid node nm v4l env).formats = []) ∧
    (∀ caps : List CapsStructure, ∀ s ∈ cheese_camera_device_filter_caps caps,
      s.media ∈ supported_formats ∧ 0 ≤ s.rate_lo ∧ s.rate_hi ≤ CHEESE_MAXIMUM_RATE) ∧
    unsupported_caps_error.code = CheeseCameraDeviceError.UNSUPPORTED_CAPS := by
  refine ⟨?_, ?_, rfl⟩
  · intro uuid node nm v4l env hp hs hb hfilter
    rw [cheese_camera_device_new_state, cheese_camera_device_constructed,
      get_caps_empty_filtered _ _ hp hs hb hfilter]
    exact ⟨rfl, rfl⟩
  · intro caps s hs
    simp only [cheese_camera_device_filter_caps, List.mem_filterMap] at hs
    obtain ⟨a, ha, hsa⟩ := hs
    split at hsa
    · next hc =>
      rw [gst_fraction_range_intersect] at hsa
      split at hsa
      · next lo hi heq =>
        simp only [Option.some.injEq] at hsa
        subst hsa
        split at heq
        · simp only [Option.some.injEq, Prod.mk.injEq] at heq
          obtain ⟨hlo, hhi⟩ := heq
          subst hlo
          subst hhi
          exact ⟨by simpa using hc, le_max_right _ _, min_le_right _ _⟩
        · exact absurd heq (by simp)
      · exact absurd hsa (by simp)
    · exact absurd hsa (by simp)

/-- Witness for C4: a device offering nothing at all yields empty filtered
caps, the stored unsupported-capabilities error, and no formats. -/
theorem empty_filtered_caps_stores_unsupported_error_witness :
    (cheese_camera_device_new_state "uuid-1" "/dev/video1" "Camera" 2
        { parse_ok := true, state_change_success := true, bus_error := none,
          device_caps := [] }).construct_error = some unsupported_caps_error ∧
    (cheese_camera_device_new_state "uuid-1" "/dev/video1" "Camera" 2
        { parse_ok := true, state_change_success := true, bus_error := none,
          device_caps := [] }).formats = [] :=
  empty_filtered_caps_stores_unsupported_error.1 "uuid-1" "/dev/video1" "Camera" 2
    _ rfl rfl rfl rfl

/-! ### Probe failure handling (C3) -/

/-- C3 counterexample: a probe whose pipeline description parses but which
fails to reach the ready state within the timeout, with no error message
posted on the bus, stores NO construction error (the C code guards the
failed-initialization error behind `if (msg)`), contradicting the claimed
storage of a failed-initialization error for every timeout. -/
theorem timeout_without_bus_message_stores_no_error :
    (cheese_camera_device_new_state "uuid-2" "/dev/video2" "Camera" 2
        { parse_ok := true, state_change_success := false, bus_error := none,
          device_caps := [] }).construct_error = none := by
  decide

/-- C3 amended: the failed-initialization construction error naming the
device node is stored exactly when the parsed pipeline's bus had an error
message; a ready-state timeout with no bus message, like a parse failure of
the pipeline description, stores no construction error; in all of these
outcomes no format list is produced. -/
theorem probe_failure_error_storage (uuid node nm : String) (v4l : Nat) (env : ProbeEnv) :
    (env.parse_ok = true → ∀ m, env.bus_error = some m →
      (cheese_camera_device_new_state uuid node nm v4l env).construct_error
          = some (failed_init_error node) ∧
      (cheese_camera_device_new_state uuid node nm v4l env).formats = []) ∧
    (env.parse_ok = true → env.bus_error = none → env.state_change_success = false →
      (cheese_camera_device_new_state uuid node nm v4l env).construct_error = none ∧
      (cheese_camera_device_new_state uuid node nm v4l env).formats = []) ∧
    (env.parse_ok = false →
      (cheese_camera_device_new_state uuid node nm v4l env).construct_error = none ∧
      (cheese_camera_device_new_state uuid node nm v4l env).formats = []) ∧
    (failed_init_error node).code = CheeseCameraDeviceError.FAILED_INITIALIZATION ∧
    (failed_init_error node).message
      = "Failed to initialize device " ++ node ++ " for capability probing" := by
  obtain ⟨po, scs, be, dc⟩ := env
  refine ⟨?_, ?_, ?_, rfl, rfl⟩
  · intro hp m hm
    simp only at hp hm
    subst hp
    subst hm
    constructor <;>
      simp [cheese_camera_device_new_state, cheese_camera_device_constructed,
        cheese_camera_device_get_caps, cheese_camera_device_init_state]
  · intro hp hb hs
    simp only at hp hb hs
    subst hp
    subst hb
    subst hs
    constructor <;>
      simp [cheese_camera_device_new_state, cheese_camera_device_constructed,
        cheese_camera_device_get_caps, cheese_camera_device_init_state]
  · intro hp
    simp only at hp
    subst hp
    constructor <;>
      simp [cheese_camera_device_new_state, cheese_camera_device_constructed,
        cheese_camera_device_get_caps, cheese_camera_device_init_state]

/-- Witness for the amended C3: a bus error message yields the stored
failed-initialization error naming the device node and no formats. -/
theorem probe_failure_error_storage_witness :
    (cheese_camera_device_new_state "uuid-4" "/dev/video4" "Camera" 2
        { parse_ok := true, state_change_success := true,
          bus_error := some "Internal data stream error",
          device_caps := [] }).construct_error = some (failed_init_error "/dev/video4") ∧
    (cheese_camera_device_new_state "uuid-4" "/dev/video4" "Camera" 2
        { parse_ok := true, state_change_success := true,
          bus_error := some "Internal data stream error",
          device_caps := [] }).formats = [] :=
  (probe_failure_error_storage "uuid-4" "/dev/video4" "Camera" 2 _).1 rfl
    "Internal data stream error" rfl

/-! ### Successful probe: non-empty, positive formats (C2) -/

/-- `cheese_camera_device_add_format` never returns the empty list. -/
lemma add_format_ne_nil (fs : List CheeseVideoFormat) (f : CheeseVideoFormat) :
    cheese_camera_device_add_format fs f ≠ [] := by
  intro hnil
  unfold cheese_camera_device_add_format at hnil
  split at hnil
  · next h =>
    rw [hnil] at h
    simp at h
  · simp at hnil

/-- A fold of `cheese_camera_device_add_format` over a non-empty candidate
list (or from a non-empty accumulator) is non-empty. -/
lemma foldl_add_format_ne_nil : ∀ (l acc : List CheeseVideoFormat),
    acc ≠ [] ∨ l ≠ [] → l.foldl cheese_camera_device_add_format acc ≠ [] := by
  intro l
  induction l with
  | nil =>
    intro acc h
    simpa using h.resolve_right (by simp)
  | cons c cs ih =>
    intro acc _
    rw [List.foldl_cons]
    exact ih _ (Or.inl (add_format_ne_nil acc c))

/-- Everything in a fold of `cheese_camera_device_add_format` came from the
accumulator or from the candidate list. -/
lemma mem_foldl_add_format : ∀ (l acc : List CheeseVideoFormat) (f : CheeseVideoFormat),
    f ∈ l.foldl cheese_camera_device_add_format acc → f ∈ acc ∨ f ∈ l := by
  intro l
  induction l with
  | nil =>
    intro acc f hf
    exact Or.inl (by simpa using hf)
  | cons c cs ih =>
    intro acc f hf
    rw [List.foldl_cons] at hf
    rcases ih _ f hf with h | h
    · unfold cheese_camera_device_add_format at h
      split at h
      · exact Or.inl h
      · rcases List.mem_append.mp h with h | h
        · exact Or.inl h
        · simp only [List.mem_singleton] at h
          exact Or.inr (by simp [h])
    · exact Or.inr (List.mem_cons_of_mem c h)

/-- Doubling-sweep candidates of a positive start are positive. -/
lemma sweep_up_go_mem_pos (fuel : Nat) (curW curH maxW maxH : Int)
    (hw : 0 < curW) (hh : 0 < curH) :
    ∀ f ∈ sweep_up_go fuel curW curH maxW maxH, 0 < f.width ∧ 0 < f.height := by
  intro f hf
  obtain ⟨k, h1, h2, _, _⟩ := sweep_up_go_mem_elim fuel curW curH maxW maxH f hf
  rw [h1, h2]
  exact ⟨mul_pos hw (pow_pos (by norm_num) k), mul_pos hh (pow_pos (by norm_num) k)⟩

/-- A well-formed caps structure contributes at least one candidate. -/
lemma structure_candidates_ne_nil (s : CapsStructure) (hwf : caps_structure_wf s) :
    structure_candidates s ≠ [] := by
  rcases s with ⟨md, rlo, rhi, wv, hv⟩
  cases wv with
  | vint w =>
    cases hv <;> simp [structure_candidates]
  | vrange lw hw =>
    cases hv with
    | vrange lh hh =>
      simp only [caps_structure_wf] at hwf
      simp only [structure_candidates, gst_value_get_int_range_min,
        gst_value_get_int_range_max]
      intro hnil
      have hup := (List.append_eq_nil.mp hnil).1
      rw [range_sweep_up, sweep_fuel, sweep_up_go,
        if_pos ⟨hwf.2.2.1, hwf.2.2.2⟩] at hup
      simp at hup
    | vint h => simp [caps_structure_wf] at hwf
    | vother => simp [caps_structure_wf] at hwf
  | vother =>
    cases hv <;> simp [caps_structure_wf] at hwf

/-- All candidates of a well-formed caps structure are positive in both
dimensions. -/
lemma structure_candidates_pos (s : CapsStructure) (hwf : caps_structure_wf s) :
    ∀ f ∈ structure_candidates s, 0 < f.width ∧ 0 < f.height := by
  rcases s with ⟨md, rlo, rhi, wv, hv⟩
  cases wv with
  | vint w =>
    cases hv with
    | vint h =>
      simp only [caps_structure_wf] at hwf
      intro f hf
      simp only [structure_candidates, gst_structure_get_int,
        List.mem_singleton] at hf
      rw [hf]
      exact hwf
    | vrange lh hh => simp [caps_structure_wf] at hwf
    | vother => simp [caps_structure_wf] at hwf
  | vrange lw hw =>
    cases hv with
    | vrange lh hh =>
      simp only [caps_structure_wf] at hwf
      intro f hf
      simp only [structure_candidates, gst_value_get_int_range_min,
        gst_value_get_int_range_max, List.mem_append] at hf
      rcases hf with hf | hf
      · exact sweep_up_go_mem_pos _ _ _ _ _ hwf.1 hwf.2.1 f hf
      · have := sweep_down_go_mem_bounds _ _ _ _ _ f hf
        exact ⟨lt_trans hwf.1 this.1, lt_trans hwf.2.1 this.2⟩
    | vint h => simp [caps_structure_wf] at hwf
    | vother => simp [caps_structure_wf] at hwf
  | vother =>
    cases hv <;> simp [caps_structure_wf] at hwf

/-- On a successful probe with non-empty filtered caps,
`cheese_camera_device_get_caps` stores the filtered caps and the derived
format table and leaves the construction error unset. -/
lemma get_caps_success (priv : CheeseCameraDevicePrivate) (env : ProbeEnv)
    (hp : env.parse_ok = true) (hs : env.state_change_success = true)
    (hb : env.bus_error = none)
    (hne : cheese_camera_device_filter_caps env.device_caps ≠ []) :
    cheese_camera_device_get_caps priv env =
      { priv with
          caps := cheese_camera_device_filter_caps env.device_caps
          formats := cheese_camera_device_update_format_table
            (cheese_camera_device_filter_caps env.device_caps) } := by
  obtain ⟨po, scs, be, dc⟩ := env
  simp only at hp hs hb hne
  subst hp hs hb
  simp [cheese_camera_device_get_caps, gst_caps_is_empty, List.isEmpty_iff, hne]

/-- C2 counterexample: a handle whose probing pipeline failed to parse stores
no construction error, yet its format list is empty — refuting the claim that
every handle without a stored construction error has a non-empty format
list. -/
theorem parse_failure_no_error_but_empty_formats :
    (cheese_camera_device_new_state "uuid-3" "/dev/video3" "Camera" 2
        { parse_ok := false, state_change_success := false, bus_error := none,
          device_caps := [] }).construct_error = none ∧
    (cheese_camera_device_new_state "uuid-3" "/dev/video3" "Camera" 2
        { parse_ok := false, state_change_success := false, bus_error := none,
          device_caps := [] }).formats = [] :=
  ⟨rfl, rfl⟩

/-- C2 amended: when the probe actually succeeded (parsed pipeline, ready
state reached, no bus error) with a non-empty, well-formed filtered
capability set, no construction error is stored, the derived format list is
non-empty, and every entry has strictly positive width and height. -/
theorem successful_probe_formats_nonempty_positive
    (uuid node nm : String) (v4l : Nat) (env : ProbeEnv)
    (hp : env.parse_ok = true) (hs : env.state_change_success = true)
    (hb : env.bus_error = none)
    (hne : cheese_camera_device_filter_caps env.device_caps ≠ [])
    (hwf : ∀ s ∈ cheese_camera_device_filter_caps env.device_caps, caps_structure_wf s) :
    (cheese_camera_device_new_state uuid node nm v4l env).construct_error = none ∧
    (cheese_camera_device_new_state uuid node nm v4l env).formats ≠ [] ∧
    ∀ f ∈ (cheese_camera_device_new_state uuid node nm v4l env).formats,
      0 < f.width ∧ 0 < f.height := by
  rw [cheese_camera_device_new_state, cheese_camera_device_constructed,
    get_caps_success _ _ hp hs hb hne]
  refine ⟨rfl, ?_, ?_⟩
  · show cheese_camera_device_update_format_table
      (cheese_camera_device_filter_caps env.device_caps) ≠ []
    rw [cheese_camera_device_update_format_table]
    apply foldl_add_format_ne_nil
    right
    cases hcaps : cheese_camera_device_filter_caps env.device_caps with
    | nil => exact absurd hcaps hne
    | cons s rest =>
      have hwfs : caps_structure_wf s :=
        hwf s (by rw [hcaps]; exact List.mem_cons_self _ _)
      simp only [List.map_cons, List.flatten_cons]
      intro hnil
      exact structure_candidates_ne_nil s hwfs (List.append_eq_nil.mp hnil).1
  · intro f hf
    have hf' : f ∈ cheese_camera_device_update_format_table
        (cheese_camera_device_filter_caps env.device_caps) := hf
    rw [cheese_camera_device_update_format_table] at hf'
    rcases mem_foldl_add_format _ _ f hf' with h | h
    · exact absurd h (List.not_mem_nil f)
    · rw [List.mem_flatten] at h
      obtain ⟨l, hl, hfl⟩ := h
      rw [List.mem_map] at hl
      obtain ⟨s, hsmem, rfl⟩ := hl
      exact structure_candidates_pos s (hwf s hsmem) f hfl

/-- Witness for the amended C2: a device offering fixed 640×480 YUV at 30
frames/second yields a handle with no error and the positive format. -/
theorem successful_probe_formats_nonempty_positive_witness :
    (cheese_camera_device_new_state "uuid-5" "/dev/video5" "Camera" 2
        { parse_ok := true, state_change_success := true, bus_error := none,
          device_caps := [CapsStructure.mk "video/x-raw-yuv" 30 30 (GVal.vint 640) (GVal.vint 480)] }).construct_error = none ∧
    (cheese_camera_device_new_state "uuid-5" "/dev/video5" "Camera" 2
        { parse_ok := true, state_change_success := true, bus_error := none,
          device_caps := [CapsStructure.mk "video/x-raw-yuv" 30 30 (GVal.vint 640) (GVal.vint 480)] }).formats ≠ [] ∧
    ∀ f ∈ (cheese_camera_device_new_state "uuid-5" "/dev/video5" "Camera" 2
        { parse_ok := true, state_change_success := true, bus_error := none,
          device_caps := [CapsStructure.mk "video/x-raw-yuv" 30 30 (GVal.vint 640) (GVal.vint 480)] }).formats,
      0 < f.width ∧ 0 < f.height :=
  successful_probe_formats_nonempty_positive "uuid-5" "/dev/video5" "Camera" 2
    _ rfl rfl rfl (by decide)
    (by
      intro s hs
      have hcaps : cheese_camera_device_filter_caps
          [CapsStructure.mk "video/x-raw-yuv" 30 30 (GVal.vint 640) (GVal.vint 480)]
          = [CapsStructure.mk "video/x-raw-yuv" 30 30 (GVal.vint 640) (GVal.vint 480)] := by
        decide
      rw [hcaps] at hs
      simp only [List.mem_singleton] at hs
      subst hs
      show (0 : Int) < 640 ∧ (0 : Int) < 480
      norm_num)
